import Mathlib

/-!
Shallow embedding of docker-restarter (src/main.rs) and verification of the
specification claims.

The program is a watchdog: a reconciliation loop periodically lists running
containers, keeps one monitor task per resolved watched container, and each
monitor task scans that container log stream for a configured substring
pattern, restarting the configured target containers on a match.

The embedding below translates the source functions into pure Lean functions.
External effects (the Docker API) are passed in as explicit inputs: the list
of currently running containers, the per-container restart outcome, and the
sequence of log-stream events delivered to a monitor task.
-/

namespace DockerRestarter

/-- Decidable equality for Except, used to evaluate results on concrete
inputs. -/
instance {ε α : Type} [DecidableEq ε] [DecidableEq α] : DecidableEq (Except ε α) :=
  fun x y =>
    match x, y with
    | .ok a, .ok b =>
      if h : a = b then isTrue (h ▸ rfl) else isFalse (fun hh => h (Except.ok.inj hh))
    | .error a, .error b =>
      if h : a = b then isTrue (h ▸ rfl) else isFalse (fun hh => h (Except.error.inj hh))
    | .ok _, .error _ => isFalse (fun hh => Except.noConfusion hh)
    | .error _, .ok _ => isFalse (fun hh => Except.noConfusion hh)

/-! ## String primitives

Rust str::contains with a string pattern is substring containment, and
str::trim_start_matches("/") repeatedly strips a leading "/".  String.splitOn
is replaced by an explicit comma split mirroring Rust str::split(',').
-/

/-- Does the character list begin with the given pattern list? -/
def startsWith : List Char → List Char → Bool
  | [], _ => true
  | _ :: _, [] => false
  | p :: ps, c :: cs => p == c && startsWith ps cs

/-- Is pat a contiguous sublist of hay? -/
def hasSub (pat hay : List Char) : Bool :=
  match hay with
  | [] => pat.isEmpty
  | _ :: rest => startsWith pat hay || hasSub pat rest

/-- Rust log_output.contains(pattern): substring containment (src/main.rs:262). -/
def logContains (line pat : String) : Bool := hasSub pat.data line.data

/-- Helper for splitComma: accumulates the current chunk in reverse. -/
def splitCommaAux (acc : List Char) : List Char → List (List Char)
  | [] => [acc.reverse]
  | c :: rest =>
    if c == ',' then acc.reverse :: splitCommaAux [] rest
    else splitCommaAux (c :: acc) rest

/-- Rust str::split(',') collected into a vector (src/main.rs:61). -/
def splitComma (s : String) : List String := (splitCommaAux [] s.data).map List.asString

/-- Helper for trimStartSlashes. -/
def dropSlashes : List Char → List Char
  | [] => []
  | c :: rest => if c == '/' then dropSlashes rest else c :: rest

/-- Rust names[0].trim_start_matches("/") (src/main.rs:212). -/
def trimStartSlashes (s : String) : String := (dropSlashes s.data).asString

/-! ## Data model (src/main.rs:158-180 and the bollard ContainerSummary fields used) -/

/-- The two fields of bollard ContainerSummary that the program reads. -/
structure ContainerSummary where
  names : Option (List String)
  id : Option String
deriving Repr, DecidableEq

/-- struct Container (src/main.rs:158-162). -/
structure Container where
  id : String
  name : String
deriving Repr, DecidableEq

/-- struct ContainerRestartConfig (src/main.rs:166-171). -/
structure ContainerRestartConfig where
  watch : String
  restart : List String
  pattern : String
  skip_first : Bool
deriving Repr, DecidableEq

/-- struct MappedContainer (src/main.rs:173-180). -/
structure MappedContainer where
  id : String
  name : String
  restart : List String
  pattern : String
  skip_first : Bool
deriving Repr, DecidableEq

/-! ## Startup (src/main.rs:38-80)

Fatal exits: the cardinality check panics (src/main.rs:47-52) and a failed
Docker connection calls exit(1) (src/main.rs:74-80).  Every other error in
the program is handled without terminating the process.
-/

/-- The four repeated command-line argument lists (src/main.rs:19-35). -/
structure Args where
  watch : List String
  restart : List String
  pattern : List String
  skip_first : List Bool
deriving Repr, DecidableEq

/-- Config construction (src/main.rs:54-70): zip the four lists; the restart
entry is comma-split, the pattern entry is kept as one literal string. -/
def mkConfigs (args : Args) : List ContainerRestartConfig :=
  (args.watch.zip (args.restart.zip (args.pattern.zip args.skip_first))).map
    fun p =>
      { watch := p.1, restart := splitComma p.2.1, pattern := p.2.2.1,
        skip_first := p.2.2.2 }

/-- How the process start can end: panic on bad config, exit(1) on a failed
Docker connection, or entering the monitoring loop. -/
inductive StartupOutcome where
  | panicConfig
  | exitConnection
  | running (configs : List ContainerRestartConfig)
deriving Repr, DecidableEq

/-- Startup sequence (src/main.rs:41-82): validate cardinalities, build the
configs, connect to Docker.  The connection attempt result is an input. -/
def startup (args : Args) (connectResult : Except String Unit) : StartupOutcome :=
  if args.watch.length ≠ args.restart.length
      ∨ args.watch.length ≠ args.pattern.length
      ∨ args.watch.length ≠ args.skip_first.length then
    .panicConfig
  else
    match connectResult with
    | .error _ => .exitConnection
    | .ok _ => .running (mkConfigs args)

/-! ## Directory resolution (src/main.rs:182-226)

get_running_containers performs the Docker list call (its result is an input
here); get_filtered_containers keeps the running containers whose first name,
stripped of leading slashes, is one of the requested names.
-/

/-- get_filtered_containers filter_map body (src/main.rs:207-221).  A summary
with missing names or id is skipped; Rust indexes names[0], so the model
requires a nonempty names list. -/
def filterContainers (summaries : List ContainerSummary) (containerNames : List String) :
    List Container :=
  summaries.filterMap fun c =>
    match c.names, c.id with
    | some (n :: _), some cid =>
      let name := trimStartSlashes n
      if containerNames.contains name then some { id := cid, name := name } else none
    | _, _ => none

/-- get_filtered_containers (src/main.rs:201-226): the Docker list result is
the input; an error from the list call is surfaced unchanged. -/
def getFilteredContainers (runningResult : Except String (List ContainerSummary))
    (containerNames : List String) : Except String (List Container) :=
  runningResult.map (fun cs => filterContainers cs containerNames)

/-! ## Restart coordinator (src/main.rs:284-295)

restart_containers resolves the restart target names through
get_filtered_containers, then restarts each resolved container in order,
propagating the first failure with the question-mark operator.  The trace of
external effects it performs is made explicit; the source performs only
docker.restart_container calls and emits no wake signal (the restart_tx
channel at src/main.rs:231 is commented out).
-/

/-- External effects the program could perform towards the reconciliation
loop: a Docker restart call, or a wake signal to the loop. -/
inductive Effect where
  | restartCall (id : String)
  | wake
deriving Repr, DecidableEq

/-- The sequential restart loop (src/main.rs:289-293): one restart call per
resolved container, in order, stopping at the first error. -/
def issueRestarts (restartResult : String → Except String Unit) :
    List Container → List Effect × Except String Unit
  | [] => ([], .ok ())
  | c :: rest =>
    match restartResult c.id with
    | .error e => ([.restartCall c.id], .error e)
    | .ok _ =>
      let r := issueRestarts restartResult rest
      (.restartCall c.id :: r.1, r.2)

/-- restart_containers (src/main.rs:284-295): resolve the targets, then issue
the restart calls.  Returns the effect trace and the overall result. -/
def restartContainersTrace (runningResult : Except String (List ContainerSummary))
    (restartResult : String → Except String Unit) (targets : List String) :
    List Effect × Except String Unit :=
  match getFilteredContainers runningResult targets with
  | .error e => ([], .error e)
  | .ok cs => issueRestarts restartResult cs

/-! ## Monitor task (src/main.rs:228-282)

monitor_logs keeps a first_time flag (true initially) and a since cursor
(now() - 10 initially).  For each delivered stream item: a read error breaks
the inner loop and the stream is reopened; a line that contains the pattern
triggers a restart unless skip_first holds and first_time is still true; a
successful restart advances since to now and reopens the stream; a failed
restart propagates out of monitor_logs, ending the task.  After any line
that did not break the loop, first_time is set to false (src/main.rs:273).
-/

/-- One item delivered by the log stream: a line, or a read error. -/
inductive LogEvent where
  | line (s : String)
  | readError
deriving Repr, DecidableEq

/-- Observable outcome of a monitor task run over a list of delivered stream
events: per-event restart-trigger flags, the error monitor_logs returned (if
any), the events left unprocessed because the task ended, and the final
first_time flag. -/
structure MonitorResult where
  triggers : List Bool
  failed : Option String
  leftover : List LogEvent
  first_time : Bool
deriving Repr, DecidableEq

/-- The monitor_logs event loop (src/main.rs:244-281) over a list of delivered
stream events.  restartOutcome k is the result of the k-th restart invocation
(restart_containers as a whole).  Stream reopening does not change first_time,
so successive streams are modelled as one event list. -/
def monitorRun (pattern : String) (skip_first : Bool)
    (restartOutcome : Nat → Except String Unit) :
    Bool → Nat → List LogEvent → MonitorResult
  | ft, _, [] => { triggers := [], failed := none, leftover := [], first_time := ft }
  | ft, k, .readError :: evs =>
    let r := monitorRun pattern skip_first restartOutcome ft k evs
    { r with triggers := false :: r.triggers }
  | ft, k, .line l :: evs =>
    if logContains l pattern then
      if !skip_first || !ft then
        match restartOutcome k with
        | .error e => { triggers := [true], failed := some e, leftover := evs, first_time := ft }
        | .ok _ =>
          let r := monitorRun pattern skip_first restartOutcome ft (k + 1) evs
          { r with triggers := true :: r.triggers }
      else
        let r := monitorRun pattern skip_first restartOutcome false k evs
        { r with triggers := false :: r.triggers }
    else
      let r := monitorRun pattern skip_first restartOutcome false k evs
      { r with triggers := false :: r.triggers }

/-- The LogsOptions fields the program sets (src/main.rs:247-253). -/
structure LogsOptions where
  stdout : Bool
  stderr : Bool
  follow : Bool
  since : Int
deriving Repr, DecidableEq

/-- Initial since cursor: now() - 10 at task start (src/main.rs:241). -/
def monitorInitSince (startTime : Int) : Int := startTime - 10

/-- Initial first_time flag (src/main.rs:240). -/
def monitorInitFirstTime : Bool := true

/-- The stream-open options used by monitor_logs (src/main.rs:245-254). -/
def monitorLogsOptions (since : Int) : LogsOptions :=
  { stdout := true, stderr := true, follow := true, since := since }

/-! ## Reconciliation loop (src/main.rs:84-155)

State: the task map (container id to spawned task handle) and the resolved
container map.  A tick resolves the watched containers; on failure it sleeps
10 seconds and retries with nothing changed; on success it aborts and removes
the tasks of ids no longer resolved, replaces the container map, spawns a
task for every resolved id without one, then sleeps 10 seconds.  A spawned
task handle may later complete on its own (taskDone); the finished handle
stays in the map.
-/

/-- Status of a JoinHandle held in the task map: still running, or already
completed on its own. -/
inductive TaskStatus where
  | running
  | finished
deriving Repr, DecidableEq

/-- The reconciliation loop state (src/main.rs:84-85): the tasks map and the
containers map, as association lists keyed by container id. -/
structure LoopState where
  tasks : List (String × TaskStatus)
  containers : List (String × MappedContainer)
deriving Repr, DecidableEq

/-- Both maps start empty (src/main.rs:84-85). -/
def initState : LoopState := { tasks := [], containers := [] }

/-- The key list of an association list. -/
def keysOf {α : Type} (l : List (String × α)) : List String := l.map Prod.fst

/-- Tick resolution (src/main.rs:88-112): filter the running containers to
the watched names and pair each with its config.  The find is total because
filtering keeps only watched names (Rust unwraps at src/main.rs:95-98). -/
def resolveContainers (configs : List ContainerRestartConfig)
    (runningResult : Except String (List ContainerSummary)) :
    Except String (List (String × MappedContainer)) :=
  (getFilteredContainers runningResult (configs.map (·.watch))).map fun cs =>
    cs.filterMap fun c =>
      match configs.find? (fun cfg => cfg.watch == c.name) with
      | some cfg =>
        some (c.id, { id := c.id, name := c.name, restart := cfg.restart,
                      pattern := cfg.pattern, skip_first := cfg.skip_first })
      | none => none

/-- Task removal (src/main.rs:125-131): for every id in the old containers
map that is not in the new one, abort and remove its task. -/
def removeStale (tasks : List (String × TaskStatus)) (oldIds newIds : List String) :
    List (String × TaskStatus) :=
  tasks.filter fun e => !(oldIds.contains e.1 && !newIds.contains e.1)

/-- Task spawning (src/main.rs:135-152): for every resolved container whose
id has no entry in the task map, spawn a task and insert its handle. -/
def spawnMissing (tasks : List (String × TaskStatus)) :
    List (String × MappedContainer) → List (String × TaskStatus)
  | [] => tasks
  | c :: rest =>
    if (keysOf tasks).contains c.1 then spawnMissing tasks rest
    else spawnMissing (tasks ++ [(c.1, .running)]) rest

/-- One iteration of the loop (src/main.rs:87-155).  Returns the new state
and the number of seconds slept before the next iteration: 10 in the failure
branch (src/main.rs:120) and 10 at the end of a successful tick
(src/main.rs:154); there is no wake signal that could shorten either sleep. -/
def tick (configs : List ContainerRestartConfig) (st : LoopState)
    (runningResult : Except String (List ContainerSummary)) : LoopState × Nat :=
  match resolveContainers configs runningResult with
  | .error _ => (st, 10)
  | .ok newCs =>
    let tasks1 := removeStale st.tasks (keysOf st.containers) (keysOf newCs)
    let tasks2 := spawnMissing tasks1 newCs
    ({ tasks := tasks2, containers := newCs }, 10)

/-- A spawned task completing on its own (e.g. monitor_logs returned an
error): the JoinHandle in the map becomes finished but is not removed. -/
def finishTask (tasks : List (String × TaskStatus)) (id : String) :
    List (String × TaskStatus) :=
  tasks.map fun e => if e.1 == id then (e.1, .finished) else e

/-- Events driving the reconciliation state between observations: a tick with
a given Docker list result, or a task completing on its own. -/
inductive LoopEvent where
  | tickEv (runningResult : Except String (List ContainerSummary))
  | taskDone (id : String)

/-- One loop-state transition. -/
def loopStep (configs : List ContainerRestartConfig) (st : LoopState) :
    LoopEvent → LoopState
  | .tickEv rr => (tick configs st rr).1
  | .taskDone id => { st with tasks := finishTask st.tasks id }

/-- Run a sequence of loop events. -/
def runLoop (configs : List ContainerRestartConfig) (st : LoopState)
    (evs : List LoopEvent) : LoopState :=
  evs.foldl (loopStep configs) st

/-! ## Spec-side pattern reading (for claim C3)

The CLI help for the pattern flag says "Patterns to watch for
(comma-separated)" (src/main.rs:28), and the spec reads each pattern entry as
a set of one or more literal substrings, matched if the line contains any
one.  The code never splits the pattern entry. -/

/-- The pattern set denoted by one pattern argument under the comma-separated
reading documented by the CLI help. -/
def specPatternSet (patternArg : String) : List String := splitComma patternArg

/-- Spec-side match: the line contains any configured pattern. -/
def specMatches (patternArg line : String) : Bool :=
  (specPatternSet patternArg).any (fun p => logContains line p)

/-! ## Helper lemmas about the association-list maps -/

theorem contains_iff_mem {a : String} {l : List String} :
    l.contains a = true ↔ a ∈ l := by
  simp [List.contains, List.elem_iff]

theorem mem_keysOf {α : Type} {id : String} {l : List (String × α)} :
    id ∈ keysOf l ↔ ∃ s, (id, s) ∈ l := by
  constructor
  · intro h
    rcases List.mem_map.mp h with ⟨e, hm, he⟩
    exact ⟨e.2, by rw [← he]; exact hm⟩
  · rintro ⟨s, hm⟩
    exact List.mem_map.mpr ⟨(id, s), hm, rfl⟩

theorem keysOf_append {α : Type} (l₁ l₂ : List (String × α)) :
    keysOf (l₁ ++ l₂) = keysOf l₁ ++ keysOf l₂ :=
  List.map_append _ _ _

theorem keysOf_sublist_filter {α : Type} (p : String × α → Bool) (l : List (String × α)) :
    List.Sublist (keysOf (l.filter p)) (keysOf l) :=
  List.Sublist.map Prod.fst (List.filter_sublist l)

theorem nodup_keysOf_filter {α : Type} {p : String × α → Bool} {l : List (String × α)}
    (h : (keysOf l).Nodup) : (keysOf (l.filter p)).Nodup :=
  (keysOf_sublist_filter p l).nodup h

theorem mem_removeStale {ts : List (String × TaskStatus)} {oldIds newIds : List String}
    {e : String × TaskStatus} :
    e ∈ removeStale ts oldIds newIds ↔
      e ∈ ts ∧ (e.1 ∈ oldIds → e.1 ∈ newIds) := by
  simp only [removeStale, List.mem_filter, Bool.not_eq_true', Bool.and_eq_false_imp,
    Bool.not_eq_false]
  constructor
  · rintro ⟨h1, h2⟩
    refine ⟨h1, fun hold => ?_⟩
    have hb := h2 (contains_iff_mem.mpr hold)
    exact contains_iff_mem.mp (by simpa using hb)
  · rintro ⟨h1, h2⟩
    refine ⟨h1, fun hold => ?_⟩
    simpa using contains_iff_mem.mpr (h2 (contains_iff_mem.mp hold))

theorem mem_spawnMissing_of_mem {cs : List (String × MappedContainer)}
    {ts : List (String × TaskStatus)} {e : String × TaskStatus} (h : e ∈ ts) :
    e ∈ spawnMissing ts cs := by
  induction cs generalizing ts with
  | nil => exact h
  | cons c rest ih =>
    simp only [spawnMissing]
    split
    · exact ih h
    · exact ih (List.mem_append_left _ h)

theorem keysOf_spawnMissing {cs : List (String × MappedContainer)}
    {ts : List (String × TaskStatus)} {id : String} :
    id ∈ keysOf (spawnMissing ts cs) ↔ id ∈ keysOf ts ∨ id ∈ keysOf cs := by
  induction cs generalizing ts with
  | nil => simp [spawnMissing, keysOf]
  | cons c rest ih =>
    simp only [spawnMissing]
    split
    · rename_i hc
      rw [ih]
      have hck : c.1 ∈ keysOf ts := contains_iff_mem.mp hc
      constructor
      · rintro (h | h)
        · exact Or.inl h
        · exact Or.inr (List.mem_cons_of_mem _ h)
      · rintro (h | h)
        · exact Or.inl h
        · rcases List.mem_cons.mp h with h | h
          · exact Or.inl (h ▸ hck)
          · exact Or.inr h
    · rw [ih, keysOf_append]
      constructor
      · rintro (h | h)
        · rcases List.mem_append.mp h with h | h
          · exact Or.inl h
          · rcases List.mem_singleton.mp h with rfl
            exact Or.inr (List.mem_cons_self _ _)
        · exact Or.inr (List.mem_cons_of_mem _ h)
      · rintro (h | h)
        · exact Or.inl (List.mem_append.mpr (Or.inl h))
        · rcases List.mem_cons.mp h with h | h
          · exact Or.inl (List.mem_append.mpr (Or.inr (List.mem_singleton.mpr h)))
          · exact Or.inr h

theorem nodup_keysOf_spawnMissing {cs : List (String × MappedContainer)}
    {ts : List (String × TaskStatus)} (h : (keysOf ts).Nodup) :
    (keysOf (spawnMissing ts cs)).Nodup := by
  induction cs generalizing ts with
  | nil => exact h
  | cons c rest ih =>
    simp only [spawnMissing]
    split
    · exact ih h
    · rename_i hc
      apply ih
      rw [keysOf_append]
      refine List.Nodup.append h (List.nodup_singleton _) ?_
      intro a ha hb
      have hb' : a = c.1 := by simpa [keysOf] using hb
      subst hb'
      exact hc (contains_iff_mem.mpr ha)

theorem mem_spawnMissing_new {cs : List (String × MappedContainer)}
    {ts : List (String × TaskStatus)} {cid : String}
    (hnot : cid ∉ keysOf ts) (hin : cid ∈ keysOf cs) :
    (cid, TaskStatus.running) ∈ spawnMissing ts cs := by
  induction cs generalizing ts with
  | nil => simp [keysOf] at hin
  | cons c rest ih =>
    simp only [spawnMissing]
    by_cases hc : c.1 = cid
    · have hfalse : (keysOf ts).contains c.1 = false := by
        rw [hc]
        cases hcc : (keysOf ts).contains cid with
        | false => rfl
        | true => exact absurd (contains_iff_mem.mp hcc) hnot
      rw [hfalse]
      simp only [Bool.false_eq_true, if_false]
      exact mem_spawnMissing_of_mem
        (List.mem_append_right _ (by rw [hc]; exact List.mem_singleton.mpr rfl))
    · have hin' : cid ∈ keysOf rest := by
        rcases List.mem_cons.mp hin with h | h
        · exact absurd h.symm hc
        · exact h
      split
      · exact ih hnot hin'
      · refine ih ?_ hin'
        rw [keysOf_append]
        intro hmem
        rcases List.mem_append.mp hmem with h | h
        · exact hnot h
        · exact hc (List.mem_singleton.mp h).symm

theorem status_unique {ts : List (String × TaskStatus)} {id : String} {a b : TaskStatus}
    (hnd : (keysOf ts).Nodup) (ha : (id, a) ∈ ts) (hb : (id, b) ∈ ts) : a = b := by
  induction ts with
  | nil => cases ha
  | cons e rest ih =>
    have hnd' : e.1 ∉ keysOf rest ∧ (keysOf rest).Nodup := by
      simpa [keysOf] using hnd
    rcases List.mem_cons.mp ha with ha | ha
    · rcases List.mem_cons.mp hb with hb | hb
      · rw [← ha] at hb
        exact (Prod.mk.injEq _ _ _ _ ▸ hb.symm).2
      · exfalso
        apply hnd'.1
        rw [← ha]
        exact mem_keysOf.mpr ⟨b, hb⟩
    · rcases List.mem_cons.mp hb with hb | hb
      · exfalso
        apply hnd'.1
        rw [← hb]
        exact mem_keysOf.mpr ⟨a, ha⟩
      · exact ih hnd'.2 ha hb

theorem fst_finishEntry (id : String) (e : String × TaskStatus) :
    (if e.1 == id then (e.1, TaskStatus.finished) else e).1 = e.1 := by
  split <;> rfl

theorem keysOf_finishTask {ts : List (String × TaskStatus)} {id : String} :
    keysOf (finishTask ts id) = keysOf ts := by
  induction ts with
  | nil => rfl
  | cons e rest ih =>
    have h1 : finishTask (e :: rest) id
        = (if e.1 == id then (e.1, TaskStatus.finished) else e) :: finishTask rest id := rfl
    rw [h1]
    show (if e.1 == id then (e.1, TaskStatus.finished) else e).1 :: keysOf (finishTask rest id)
        = e.1 :: keysOf rest
    rw [fst_finishEntry, ih]

theorem mem_finishTask_finished {ts : List (String × TaskStatus)} {id j : String}
    (h : (id, TaskStatus.finished) ∈ ts) :
    (id, TaskStatus.finished) ∈ finishTask ts j := by
  have hmap := List.mem_map_of_mem (fun e => if e.1 == j then (e.1, TaskStatus.finished) else e) h
  have heq : (fun (e : String × TaskStatus) => if e.1 == j then (e.1, TaskStatus.finished) else e)
      (id, TaskStatus.finished) = (id, TaskStatus.finished) := by
    show (if (id == j) then ((id : String), TaskStatus.finished) else (id, TaskStatus.finished))
        = (id, TaskStatus.finished)
    split <;> rfl
  rw [heq] at hmap
  exact hmap

/-! ## Reconciliation tick lemmas -/

/-- A failed resolution leaves the loop state untouched and sleeps 10
seconds (src/main.rs:114-122). -/
theorem tick_error {configs : List ContainerRestartConfig} {st : LoopState}
    {rr : Except String (List ContainerSummary)} {e : String}
    (h : resolveContainers configs rr = .error e) :
    tick configs st rr = (st, 10) := by
  simp [tick, h]

/-- A successful tick removes the stale tasks, replaces the container map,
spawns the missing tasks, and sleeps 10 seconds (src/main.rs:125-155). -/
theorem tick_ok {configs : List ContainerRestartConfig} {st : LoopState}
    {rr : Except String (List ContainerSummary)}
    {newCs : List (String × MappedContainer)}
    (h : resolveContainers configs rr = .ok newCs) :
    tick configs st rr =
      ({ tasks := spawnMissing (removeStale st.tasks (keysOf st.containers) (keysOf newCs))
            newCs,
         containers := newCs }, 10) := by
  simp [tick, h]

/-- If the task keys match the old container keys, then after removing stale
tasks and spawning missing ones the task keys are exactly the newly resolved
ids. -/
theorem keys_spawn_remove {st : LoopState} {newCs : List (String × MappedContainer)}
    (hinv : ∀ i, i ∈ keysOf st.tasks ↔ i ∈ keysOf st.containers) (id : String) :
    id ∈ keysOf (spawnMissing (removeStale st.tasks (keysOf st.containers) (keysOf newCs))
        newCs)
      ↔ id ∈ keysOf newCs := by
  constructor
  · intro h
    rcases keysOf_spawnMissing.mp h with h | h
    · rcases mem_keysOf.mp h with ⟨s, hs⟩
      rcases mem_removeStale.mp hs with ⟨hts, himp⟩
      exact himp ((hinv id).mp (mem_keysOf.mpr ⟨s, hts⟩))
    · exact h
  · intro h
    exact keysOf_spawnMissing.mpr (Or.inr h)

/-- The reconciliation invariant: the task map keys coincide with the
resolved container map keys and hold no duplicates. -/
def TasksMatch (st : LoopState) : Prop :=
  (∀ id, id ∈ keysOf st.tasks ↔ id ∈ keysOf st.containers) ∧ (keysOf st.tasks).Nodup

theorem tasksMatch_init : TasksMatch initState :=
  ⟨fun id => by simp [initState, keysOf], by simp [initState, keysOf]⟩

theorem tasksMatch_tick {configs : List ContainerRestartConfig} {st : LoopState}
    {rr : Except String (List ContainerSummary)} (h : TasksMatch st) :
    TasksMatch ((tick configs st rr).1) := by
  cases hres : resolveContainers configs rr with
  | error e => rw [tick_error hres]; exact h
  | ok newCs =>
    rw [tick_ok hres]
    exact ⟨fun id => keys_spawn_remove h.1 id,
      nodup_keysOf_spawnMissing (nodup_keysOf_filter h.2)⟩

theorem tasksMatch_loopStep {configs : List ContainerRestartConfig} {st : LoopState}
    {ev : LoopEvent} (h : TasksMatch st) : TasksMatch (loopStep configs st ev) := by
  cases ev with
  | tickEv rr => exact tasksMatch_tick h
  | taskDone id =>
    refine ⟨fun i => ?_, ?_⟩
    · show i ∈ keysOf (finishTask st.tasks id) ↔ _
      rw [keysOf_finishTask]
      exact h.1 i
    · show (keysOf (finishTask st.tasks id)).Nodup
      rw [keysOf_finishTask]
      exact h.2

theorem tasksMatch_runLoop {configs : List ContainerRestartConfig} {st : LoopState}
    {evs : List LoopEvent} (h : TasksMatch st) : TasksMatch (runLoop configs st evs) := by
  induction evs generalizing st with
  | nil => exact h
  | cons ev evs ih => exact ih (tasksMatch_loopStep h)

/-! ## Monitor task lemmas -/

/-- With skip_first set and the first_time flag already cleared, every
delivered matching line triggers a restart; with successful restarts the
whole event list is processed and first_time stays cleared. -/
theorem monitorRun_allOk_cleared (pattern : String) :
    ∀ (ls : List String) (k : Nat),
      monitorRun pattern true (fun _ => Except.ok ()) false k (ls.map .line)
        = { triggers := ls.map (fun x => logContains x pattern), failed := none,
            leftover := [], first_time := false }
  | [], _ => rfl
  | l :: ls, k => by
    have ih := monitorRun_allOk_cleared pattern ls (k + 1)
    have ih2 := monitorRun_allOk_cleared pattern ls k
    cases hl : logContains l pattern with
    | true => simp [monitorRun, hl, ih]
    | false => simp [monitorRun, hl, ih2]

/-- A matching line delivered when the skip allowance is spent invokes the
restart coordinator; if that invocation fails, monitor_logs returns the error
and none of the remaining events is processed (src/main.rs:266). -/
theorem monitorRun_restart_error (pattern : String) (skip_first ft : Bool)
    (oracle : Nat → Except String Unit) (k : Nat) (l : String) (evs : List LogEvent)
    (e : String) (hl : logContains l pattern = true) (hft : (!skip_first || !ft) = true)
    (he : oracle k = .error e) :
    monitorRun pattern skip_first oracle ft k (.line l :: evs)
      = { triggers := [true], failed := some e, leftover := evs, first_time := ft } := by
  simp [monitorRun, hl, hft, he]

/-- C1 (amended): with skipFirst=true the skip allowance is consumed by the
first delivered line whether or not it matches (first_time is cleared after
every processed line, src/main.rs:273).  Hence a matching line triggers a
restart if and only if it is not the very first line delivered: the trigger
list over any delivered line sequence is false for the first line and then
exactly the match flag of every later line.  In particular, for a sequence of
N matching lines with nothing before them, exactly the 2nd through Nth
matches trigger restarts. -/
theorem c1_skip_consumed_by_first_line (pattern l : String) (ls : List String) :
    monitorRun pattern true (fun _ => Except.ok ()) true 0 ((l :: ls).map .line)
      = { triggers := false :: ls.map (fun x => logContains x pattern), failed := none,
          leftover := [], first_time := false } := by
  cases hl : logContains l pattern with
  | true => simp [monitorRun, hl, monitorRun_allOk_cleared]
  | false => simp [monitorRun, hl, monitorRun_allOk_cleared]

/-- C1 counterexample: with skipFirst=true, pattern "X" and the delivered
lines ["a", "Xb"], the first matching line ("Xb", the only match) does
trigger a restart, because the non-matching line "a" already cleared
first_time.  The claim predicts no restart for the first match, i.e. trigger
list [false, false] and zero restart calls; the code produces [false, true]
and one restart call. -/
theorem c1_counterexample_first_match_triggers :
    logContains "a" "X" = false ∧ logContains "Xb" "X" = true ∧
    (monitorRun "X" true (fun _ => Except.ok ()) true 0 [.line "a", .line "Xb"]).triggers
      = [false, true] ∧
    ((monitorRun "X" true (fun _ => Except.ok ()) true 0
        [.line "a", .line "Xb"]).triggers.count true) = 1 := by
  decide

/-- C10: a monitor task opens its first log stream with follow mode and the
since cursor set to 10 seconds before its start time (src/main.rs:241,247),
and a line replayed from that window is processed exactly like a live line:
with skipFirst=true a matching first line consumes the skip allowance
without a restart, and with skipFirst=false it triggers a restart. -/
theorem c10_first_stream_since_ten_seconds_back (t : Int) (pattern l : String) :
    monitorLogsOptions (monitorInitSince t)
      = { stdout := true, stderr := true, follow := true, since := t - 10 }
    ∧ monitorInitFirstTime = true
    ∧ (logContains l pattern = true →
        monitorRun pattern true (fun _ => Except.ok ()) monitorInitFirstTime 0 [.line l]
          = { triggers := [false], failed := none, leftover := [], first_time := false }
        ∧ monitorRun pattern false (fun _ => Except.ok ()) monitorInitFirstTime 0 [.line l]
          = { triggers := [true], failed := none, leftover := [], first_time := true }) := by
  refine ⟨rfl, rfl, fun h => ⟨?_, ?_⟩⟩
  · simp [monitorRun, h, monitorInitFirstTime]
  · simp [monitorRun, h, monitorInitFirstTime]

/-- Witness for C10 at start time 0, pattern "OOM" and a matching replayed
line. -/
theorem c10_witness :
    logContains "OOM killed process" "OOM" = true ∧
    monitorRun "OOM" true (fun _ => Except.ok ()) monitorInitFirstTime 0
        [.line "OOM killed process"]
      = { triggers := [false], failed := none, leftover := [], first_time := false } :=
  ⟨by decide,
   ((c10_first_stream_since_ten_seconds_back 0 "OOM" "OOM killed process").2.2 (by decide)).1⟩

/-! ## Restart coordinator lemmas -/

/-- Every effect in the restart loop trace is a restart call for one of the
containers handed to the loop. -/
theorem mem_issueRestarts_trace {oracle : String → Except String Unit} :
    ∀ (cs : List Container) (eff : Effect), eff ∈ (issueRestarts oracle cs).1 →
      ∃ c, c ∈ cs ∧ eff = .restartCall c.id
  | [], _, h => absurd h (List.not_mem_nil _)
  | c :: rest, eff, h => by
    cases ho : oracle c.id with
    | error e =>
      rw [show issueRestarts oracle (c :: rest) = ([.restartCall c.id], .error e) from by
        simp [issueRestarts, ho]] at h
      exact ⟨c, List.mem_cons_self _ _, List.mem_singleton.mp h⟩
    | ok u =>
      have hcons : (issueRestarts oracle (c :: rest)).1
          = .restartCall c.id :: (issueRestarts oracle rest).1 := by
        simp [issueRestarts, ho]
      rw [hcons] at h
      rcases List.mem_cons.mp h with rfl | hh
      · exact ⟨c, List.mem_cons_self _ _, rfl⟩
      · rcases mem_issueRestarts_trace rest eff hh with ⟨c', hc', he'⟩
        exact ⟨c', List.mem_cons_of_mem _ hc', he'⟩

/-- Every effect restart_containers performs is a restart call for a
container resolved from the target names. -/
theorem mem_restartTrace {rr : Except String (List ContainerSummary)}
    {oracle : String → Except String Unit} {targets : List String} {eff : Effect}
    (h : eff ∈ (restartContainersTrace rr oracle targets).1) :
    ∃ cs c, getFilteredContainers rr targets = .ok cs ∧ c ∈ cs
      ∧ eff = .restartCall c.id := by
  cases hres : getFilteredContainers rr targets with
  | error e =>
    rw [show restartContainersTrace rr oracle targets = ([], .error e) from by
      simp [restartContainersTrace, hres]] at h
    cases h
  | ok cs =>
    rw [show restartContainersTrace rr oracle targets = issueRestarts oracle cs from by
      simp [restartContainersTrace, hres]] at h
    rcases mem_issueRestarts_trace cs eff h with ⟨c, hc, he⟩
    exact ⟨cs, c, rfl, hc, he⟩

/-- When every restart call succeeds, the loop restarts every resolved
container in order and reports success. -/
theorem issueRestarts_allOk {oracle : String → Except String Unit} :
    ∀ (cs : List Container), (∀ c ∈ cs, oracle c.id = .ok ()) →
      issueRestarts oracle cs = (cs.map (fun c => .restartCall c.id), .ok ())
  | [], _ => rfl
  | c :: rest, h => by
    have hc : oracle c.id = .ok () := h c (List.mem_cons_self _ _)
    have ih := issueRestarts_allOk rest (fun x hx => h x (List.mem_cons_of_mem _ hx))
    simp [issueRestarts, hc, ih]

/-- The first failing restart call stops the loop: the containers before it
were restarted, the failing one was attempted, those after it were not, and
the failing call error is the overall result. -/
theorem issueRestarts_failAt {oracle : String → Except String Unit} :
    ∀ (cs₁ : List Container) (c : Container) (cs₂ : List Container) (e : String),
      (∀ x ∈ cs₁, oracle x.id = .ok ()) → oracle c.id = .error e →
      issueRestarts oracle (cs₁ ++ c :: cs₂)
        = ((cs₁ ++ [c]).map (fun x => .restartCall x.id), .error e)
  | [], c, cs₂, e, _, he => by simp [issueRestarts, he]
  | x :: cs₁, c, cs₂, e, h, he => by
    have hx : oracle x.id = .ok () := h x (List.mem_cons_self _ _)
    have ih := issueRestarts_failAt cs₁ c cs₂ e (fun y hy => h y (List.mem_cons_of_mem _ hy)) he
    simp [issueRestarts, hx, ih]

/-! ## Concrete fixtures used by witnesses and counterexamples -/

/-- A running container named a (Docker reports the name as "/a"). -/
def sumA : ContainerSummary := { names := some ["/a"], id := some "c1" }

/-- A running container named b. -/
def sumB : ContainerSummary := { names := some ["/b"], id := some "c2" }

/-- A watch entry for container a with pattern "X" and skip_first. -/
def cfgA : ContainerRestartConfig :=
  { watch := "a", restart := ["a"], pattern := "X", skip_first := true }

/-- The mapped container the loop builds for sumA under cfgA. -/
def mcA : MappedContainer :=
  { id := "c1", name := "a", restart := ["a"], pattern := "X", skip_first := true }

/-- A restart oracle that fails exactly for container id c2. -/
def oracleFailB : String → Except String Unit :=
  fun id => if id == "c2" then .error "boom" else .ok ()

/-- C2 (amended): restart_containers emits no wake signal at all (its effect
trace holds only Docker restart calls; the restart_tx channel in the source
is commented out), and the reconciliation loop inter-tick wait is always the
full fixed 10-second sleep, on success and on failure alike. -/
theorem c2_no_wake_fixed_sleep :
    (∀ (rr : Except String (List ContainerSummary)) (oracle : String → Except String Unit)
        (targets : List String) (eff : Effect),
        eff ∈ (restartContainersTrace rr oracle targets).1 → ∃ id, eff = .restartCall id)
    ∧ (∀ (configs : List ContainerRestartConfig) (st : LoopState)
        (rr : Except String (List ContainerSummary)), (tick configs st rr).2 = 10) := by
  constructor
  · intro rr oracle targets eff h
    rcases mem_restartTrace h with ⟨cs, c, _, _, he⟩
    exact ⟨c.id, he⟩
  · intro configs st rr
    cases hres : resolveContainers configs rr with
    | error e => rw [tick_error hres]
    | ok newCs => rw [tick_ok hres]

/-- C2 counterexample: a restart invocation that completes (successfully)
with its entire effect trace listed: it is one restart call and contains no
wake signal, refuting the claim that a wake signal is emitted to the
reconciliation loop after every completed invocation. -/
theorem c2_counterexample_no_wake :
    (restartContainersTrace (.ok [sumA]) (fun _ => Except.ok ()) ["a"]).2 = Except.ok ()
    ∧ (restartContainersTrace (.ok [sumA]) (fun _ => Except.ok ()) ["a"]).1
        = [Effect.restartCall "c1"]
    ∧ ((restartContainersTrace (.ok [sumA]) (fun _ => Except.ok ()) ["a"]).1).contains
        Effect.wake = false := by
  decide

/-- Witness for C2 at a concrete completed restart invocation. -/
theorem c2_witness :
    Effect.restartCall "c1" ∈ (restartContainersTrace (.ok [sumA])
        (fun _ => Except.ok ()) ["a"]).1
    ∧ (∃ id, Effect.restartCall "c1" = Effect.restartCall id)
    ∧ (tick [cfgA] initState (.ok [sumA])).2 = 10 :=
  ⟨by decide,
   c2_no_wake_fixed_sleep.1 (.ok [sumA]) (fun _ => Except.ok ()) ["a"]
     (Effect.restartCall "c1") (by decide),
   c2_no_wake_fixed_sleep.2 [cfgA] initState (.ok [sumA])⟩

/-- C7: restart calls are issued only for target names that resolve to
currently running containers, and a target name resolving to no running
container is silently skipped: with only a running, restart(["a", "b"])
issues exactly one restart call, for container a, and returns success. -/
theorem c7_unresolved_targets_skipped :
    (∀ (rr : Except String (List ContainerSummary)) (oracle : String → Except String Unit)
        (targets : List String) (eff : Effect),
        eff ∈ (restartContainersTrace rr oracle targets).1 →
        ∃ cs c, getFilteredContainers rr targets = .ok cs ∧ c ∈ cs
          ∧ eff = .restartCall c.id)
    ∧ restartContainersTrace (.ok [sumA]) (fun _ => Except.ok ()) ["a", "b"]
        = ([.restartCall "c1"], .ok ()) := by
  constructor
  · intro rr oracle targets eff h
    exact mem_restartTrace h
  · decide

/-- Witness for C7 at the concrete restart(["a", "b"]) invocation. -/
theorem c7_witness :
    Effect.restartCall "c1" ∈ (restartContainersTrace (.ok [sumA])
        (fun _ => Except.ok ()) ["a", "b"]).1
    ∧ (∃ cs c, getFilteredContainers (.ok [sumA]) ["a", "b"] = .ok cs ∧ c ∈ cs
        ∧ Effect.restartCall "c1" = Effect.restartCall c.id) :=
  ⟨by decide,
   c7_unresolved_targets_skipped.1 (.ok [sumA]) (fun _ => Except.ok ()) ["a", "b"]
     (Effect.restartCall "c1") (by decide)⟩

/-- C8: restart_containers first resolves the target names; on resolution
failure no restart call is issued and the error is returned; on resolution
success the resolved containers are restarted one at a time in resolution
order, and the first failing restart call ends the invocation with that
error (no partial-success result). -/
theorem c8_resolve_then_sequential_failfast (rr : Except String (List ContainerSummary))
    (oracle : String → Except String Unit) (targets : List String) :
    (∀ e, getFilteredContainers rr targets = .error e →
      restartContainersTrace rr oracle targets = ([], .error e))
    ∧ (∀ cs, getFilteredContainers rr targets = .ok cs →
        ((∀ c ∈ cs, oracle c.id = .ok ()) →
          restartContainersTrace rr oracle targets
            = (cs.map (fun c => .restartCall c.id), .ok ()))
        ∧ (∀ cs₁ c cs₂ e, cs = cs₁ ++ c :: cs₂ → (∀ x ∈ cs₁, oracle x.id = .ok ()) →
            oracle c.id = .error e →
            restartContainersTrace rr oracle targets
              = ((cs₁ ++ [c]).map (fun x => .restartCall x.id), .error e))) := by
  constructor
  · intro e he
    simp [restartContainersTrace, he]
  · intro cs hcs
    constructor
    · intro hok
      rw [show restartContainersTrace rr oracle targets = issueRestarts oracle cs from by
        simp [restartContainersTrace, hcs]]
      exact issueRestarts_allOk cs hok
    · intro cs₁ c cs₂ e hsplit hok he
      rw [show restartContainersTrace rr oracle targets = issueRestarts oracle cs from by
        simp [restartContainersTrace, hcs], hsplit]
      exact issueRestarts_failAt cs₁ c cs₂ e hok he

/-- Witness for C8: both running targets resolve, the restart of the second
one fails, so both calls were attempted in order and the invocation returns
the failing error. -/
theorem c8_witness :
    getFilteredContainers (.ok [sumA, sumB]) ["a", "b"]
      = .ok [{ id := "c1", name := "a" }, { id := "c2", name := "b" }]
    ∧ restartContainersTrace (.ok [sumA, sumB]) oracleFailB ["a", "b"]
        = ([.restartCall "c1", .restartCall "c2"], .error "boom") :=
  ⟨by decide,
   (((c8_resolve_then_sequential_failfast (.ok [sumA, sumB]) oracleFailB ["a", "b"]).2
      [{ id := "c1", name := "a" }, { id := "c2", name := "b" }] (by decide)).2
      [{ id := "c1", name := "a" }] { id := "c2", name := "b" } [] "boom" (by decide)
      (by decide) (by decide)).trans (by decide)⟩

/-! ## Reconciliation claims -/

/-- C4: after any history of loop events starting from the empty state, a
tick whose resolution succeeds leaves the task map keyed exactly by the
resolved container ids: no duplicate keys, membership equal to the resolved
id set, and a freshly spawned running task for every resolved id that had no
task before the tick. -/
theorem c4_tick_syncs_tasks_with_resolved (configs : List ContainerRestartConfig)
    (evs : List LoopEvent) (rr : Except String (List ContainerSummary))
    (newCs : List (String × MappedContainer))
    (hres : resolveContainers configs rr = .ok newCs) :
    (keysOf ((tick configs (runLoop configs initState evs) rr).1.tasks)).Nodup
    ∧ (∀ id, id ∈ keysOf ((tick configs (runLoop configs initState evs) rr).1.tasks)
        ↔ id ∈ keysOf newCs)
    ∧ (∀ id, id ∈ keysOf newCs → id ∉ keysOf (runLoop configs initState evs).tasks →
        (id, TaskStatus.running) ∈ (tick configs (runLoop configs initState evs) rr).1.tasks) := by
  have hm : TasksMatch (runLoop configs initState evs) := tasksMatch_runLoop tasksMatch_init
  refine ⟨?_, ?_, ?_⟩
  · rw [tick_ok hres]
    exact nodup_keysOf_spawnMissing (nodup_keysOf_filter hm.2)
  · intro id
    rw [tick_ok hres]
    exact keys_spawn_remove hm.1 id
  · intro id hnew hnot
    rw [tick_ok hres]
    refine mem_spawnMissing_new (fun hmem => ?_) hnew
    rcases mem_keysOf.mp hmem with ⟨s, hs⟩
    exact hnot (mem_keysOf.mpr ⟨s, (mem_removeStale.mp hs).1⟩)

/-- Witness for C4: one watched container resolving on the first tick gets
exactly one running task. -/
theorem c4_witness :
    resolveContainers [cfgA] (.ok [sumA]) = .ok [("c1", mcA)]
    ∧ "c1" ∈ keysOf ((tick [cfgA] (runLoop [cfgA] initState []) (.ok [sumA])).1.tasks)
    ∧ ("c1", TaskStatus.running)
        ∈ (tick [cfgA] (runLoop [cfgA] initState []) (.ok [sumA])).1.tasks :=
  ⟨by decide,
   ((c4_tick_syncs_tasks_with_resolved [cfgA] [] (.ok [sumA]) [("c1", mcA)]
      (by decide)).2.1 "c1").mpr (by decide),
   (c4_tick_syncs_tasks_with_resolved [cfgA] [] (.ok [sumA]) [("c1", mcA)]
      (by decide)).2.2 "c1" (by decide) (by decide)⟩

/-- A loop event keeps a container id monitored-in-place: a tick either
fails or resolves a set containing the id, and task completions are always
harmless to the map keys. -/
def KeepsId (configs : List ContainerRestartConfig) (id : String) : LoopEvent → Prop
  | .tickEv rr => ∀ newCs, resolveContainers configs rr = .ok newCs → id ∈ keysOf newCs
  | .taskDone _ => True

theorem finished_preserved_step {configs : List ContainerRestartConfig} {st : LoopState}
    {ev : LoopEvent} {id : String}
    (hnd : (keysOf st.tasks).Nodup) (hfin : (id, TaskStatus.finished) ∈ st.tasks)
    (hk : KeepsId configs id ev) :
    (keysOf (loopStep configs st ev).tasks).Nodup
    ∧ (id, TaskStatus.finished) ∈ (loopStep configs st ev).tasks := by
  cases ev with
  | taskDone j =>
    constructor
    · show (keysOf (finishTask st.tasks j)).Nodup
      rw [keysOf_finishTask]
      exact hnd
    · exact mem_finishTask_finished hfin
  | tickEv rr =>
    show (keysOf ((tick configs st rr).1.tasks)).Nodup
      ∧ (id, TaskStatus.finished) ∈ (tick configs st rr).1.tasks
    cases hres : resolveContainers configs rr with
    | error e =>
      rw [tick_error hres]
      exact ⟨hnd, hfin⟩
    | ok newCs =>
      have hid : id ∈ keysOf newCs := hk newCs hres
      rw [tick_ok hres]
      constructor
      · exact nodup_keysOf_spawnMissing (nodup_keysOf_filter hnd)
      · exact mem_spawnMissing_of_mem (mem_removeStale.mpr ⟨hfin, fun _ => hid⟩)

theorem finished_preserved_run {configs : List ContainerRestartConfig} {st : LoopState}
    {evs : List LoopEvent} {id : String}
    (hnd : (keysOf st.tasks).Nodup) (hfin : (id, TaskStatus.finished) ∈ st.tasks)
    (hk : ∀ ev ∈ evs, KeepsId configs id ev) :
    (keysOf (runLoop configs st evs).tasks).Nodup
    ∧ (id, TaskStatus.finished) ∈ (runLoop configs st evs).tasks := by
  induction evs generalizing st with
  | nil => exact ⟨hnd, hfin⟩
  | cons ev evs ih =>
    have h1 := finished_preserved_step hnd hfin (hk ev (List.mem_cons_self _ _))
    exact ih h1.1 h1.2 (fun e he => hk e (List.mem_cons_of_mem _ he))

/-- C5: a restart invocation that returns an error makes monitor_logs return
that error immediately, leaving the remaining delivered events unprocessed
(the task is over); and a finished task handle stays in the task map, so for
as long as every subsequent loop event keeps resolving the same id the map
keeps the finished handle for that id and never holds a running task for it
again — the container logs are no longer monitored. -/
theorem c5_restart_error_ends_monitoring :
    (∀ (pattern : String) (skip_first ft : Bool) (oracle : Nat → Except String Unit)
        (k : Nat) (l : String) (evs : List LogEvent) (e : String),
        logContains l pattern = true → (!skip_first || !ft) = true → oracle k = .error e →
        monitorRun pattern skip_first oracle ft k (.line l :: evs)
          = { triggers := [true], failed := some e, leftover := evs, first_time := ft })
    ∧ (∀ (configs : List ContainerRestartConfig) (st : LoopState) (evs : List LoopEvent)
        (id : String),
        (keysOf st.tasks).Nodup → (id, TaskStatus.finished) ∈ st.tasks →
        (∀ ev ∈ evs, KeepsId configs id ev) →
        (id, TaskStatus.finished) ∈ (runLoop configs st evs).tasks
        ∧ (id, TaskStatus.running) ∉ (runLoop configs st evs).tasks) := by
  constructor
  · intro pattern skip_first ft oracle k l evs e hl hft he
    exact monitorRun_restart_error pattern skip_first ft oracle k l evs e hl hft he
  · intro configs st evs id hnd hfin hk
    have h := finished_preserved_run hnd hfin hk
    refine ⟨h.2, fun hrun => ?_⟩
    exact TaskStatus.noConfusion (status_unique h.1 h.2 hrun)

/-- Witness for C5: a failing restart ends the monitor run, and a finished
handle for id c1 survives a task-completion event with no running task ever
appearing. -/
theorem c5_witness :
    (logContains "X" "X" = true ∧ (!true || !false) = true
      ∧ monitorRun "X" true (fun _ => Except.error "boom") false 0 [.line "X", .line "X"]
          = { triggers := [true], failed := some "boom", leftover := [.line "X"],
              first_time := false })
    ∧ (("c1", TaskStatus.finished) ∈ (runLoop [cfgA]
          { tasks := [("c1", TaskStatus.finished)], containers := [("c1", mcA)] }
          [.taskDone "c1"]).tasks
       ∧ ("c1", TaskStatus.running) ∉ (runLoop [cfgA]
          { tasks := [("c1", TaskStatus.finished)], containers := [("c1", mcA)] }
          [.taskDone "c1"]).tasks) :=
  ⟨⟨by decide, by decide,
    c5_restart_error_ends_monitoring.1 "X" true false (fun _ => Except.error "boom") 0 "X"
      [.line "X"] "boom" (by decide) (by decide) rfl⟩,
   c5_restart_error_ends_monitoring.2 [cfgA]
     { tasks := [("c1", TaskStatus.finished)], containers := [("c1", mcA)] }
     [.taskDone "c1"] "c1" (by decide) (by decide)
     (fun ev hev => by
        have hev' : ev = LoopEvent.taskDone "c1" := List.mem_singleton.mp hev
        subst hev'
        exact trivial)⟩

/-- C6: when resolution fails on a tick, the tick leaves the whole loop
state (task map and container map) exactly as it was and the next attempt
happens only after the full 10-second sleep. -/
theorem c6_resolution_failure_is_isolated (configs : List ContainerRestartConfig)
    (st : LoopState) (rr : Except String (List ContainerSummary)) (e : String)
    (h : resolveContainers configs rr = .error e) :
    tick configs st rr = (st, 10) :=
  tick_error h

/-- Witness for C6: a failed Docker listing leaves a one-task state alone. -/
theorem c6_witness :
    resolveContainers [cfgA] (Except.error "list failed") = Except.error "list failed"
    ∧ tick [cfgA] { tasks := [("c1", TaskStatus.running)], containers := [("c1", mcA)] }
        (Except.error "list failed")
        = ({ tasks := [("c1", TaskStatus.running)], containers := [("c1", mcA)] }, 10) :=
  ⟨rfl,
   c6_resolution_failure_is_isolated [cfgA]
     { tasks := [("c1", TaskStatus.running)], containers := [("c1", mcA)] }
     (Except.error "list failed") "list failed" rfl⟩

/-! ## Startup and error propagation -/

/-- C9: the process terminates abnormally exactly when the four argument
lists have unequal cardinalities (panic) or the Docker connection fails at
startup (exit 1); a failed resolution only re-runs the tick with the state
untouched, a stream read error only moves the monitor on to its next events,
and a failed restart only ends that one monitor task by making monitor_logs
return the error. -/
theorem c9_only_config_and_connection_fatal :
    (∀ (args : Args) (conn : Except String Unit),
      (startup args conn = .panicConfig ∨ startup args conn = .exitConnection)
        ↔ ((args.watch.length ≠ args.restart.length
            ∨ args.watch.length ≠ args.pattern.length
            ∨ args.watch.length ≠ args.skip_first.length)
           ∨ ∃ e, conn = .error e))
    ∧ (∀ (configs : List ContainerRestartConfig) (st : LoopState)
        (rr : Except String (List ContainerSummary)) (e : String),
        resolveContainers configs rr = .error e → tick configs st rr = (st, 10))
    ∧ (∀ (pattern : String) (skip_first : Bool) (oracle : Nat → Except String Unit)
        (ft : Bool) (k : Nat) (evs : List LogEvent),
        (monitorRun pattern skip_first oracle ft k (.readError :: evs)).failed
          = (monitorRun pattern skip_first oracle ft k evs).failed
        ∧ (monitorRun pattern skip_first oracle ft k (.readError :: evs)).leftover
          = (monitorRun pattern skip_first oracle ft k evs).leftover)
    ∧ (∀ (pattern : String) (skip_first ft : Bool) (oracle : Nat → Except String Unit)
        (k : Nat) (l : String) (evs : List LogEvent) (e : String),
        logContains l pattern = true → (!skip_first || !ft) = true → oracle k = .error e →
        (monitorRun pattern skip_first oracle ft k (.line l :: evs)).failed = some e) := by
  refine ⟨?_, ?_, ?_, ?_⟩
  · intro args conn
    by_cases hlen : args.watch.length ≠ args.restart.length
        ∨ args.watch.length ≠ args.pattern.length
        ∨ args.watch.length ≠ args.skip_first.length
    · simp [startup, hlen]
    · cases conn with
      | error e => simp [startup, hlen]
      | ok u => simp [startup, hlen]
  · intro configs st rr e h
    exact tick_error h
  · intro pattern skip_first oracle ft k evs
    exact ⟨rfl, rfl⟩
  · intro pattern skip_first ft oracle k l evs e hl hft he
    rw [monitorRun_restart_error pattern skip_first ft oracle k l evs e hl hft he]

/-- Witness for C9: a cardinality mismatch is fatal, while a resolution
error and a restart error each leave the process running. -/
theorem c9_witness :
    (startup { watch := ["w"], restart := [], pattern := [], skip_first := [] }
        (Except.ok ()) = .panicConfig
      ∨ startup { watch := ["w"], restart := [], pattern := [], skip_first := [] }
        (Except.ok ()) = .exitConnection)
    ∧ tick [cfgA] initState (Except.error "down") = (initState, 10)
    ∧ (monitorRun "X" true (fun _ => Except.error "boom") false 0 [.line "X"]).failed
        = some "boom" :=
  ⟨(c9_only_config_and_connection_fatal.1
      { watch := ["w"], restart := [], pattern := [], skip_first := [] }
      (Except.ok ())).mpr (Or.inl (Or.inl (by decide))),
   c9_only_config_and_connection_fatal.2.1 [cfgA] initState (Except.error "down") "down" rfl,
   c9_only_config_and_connection_fatal.2.2.2 "X" true false (fun _ => Except.error "boom")
     0 "X" [] "boom" (by decide) (by decide) rfl⟩

/-- C3 (code bug evidence): the CLI help documents the pattern flag as
comma-separated and the restart flag entry is indeed comma-split into a
list, but the pattern entry is stored as one literal string; a log line
containing "a" therefore does not match the configured entry "a,b", although
under the documented comma-separated set reading it matches the pattern
"a". -/
theorem c3_pattern_entry_not_split :
    mkConfigs { watch := ["w"], restart := ["r1,r2"], pattern := ["a,b"], skip_first := [true] }
      = [{ watch := "w", restart := ["r1", "r2"], pattern := "a,b", skip_first := true }]
    ∧ logContains "a appeared" "a,b" = false
    ∧ specMatches "a,b" "a appeared" = true
    ∧ logContains "a appeared" "a" = true := by
  decide

end DockerRestarter
